import Mathlib

/-!
Verification of `asciichartpy/__init__.py` (the `plot` function).

Shallow embedding conventions:
* Python floats are modelled as exact rationals.  To keep every definition
  executable by kernel reduction, a number is a `PyNum`: an unreduced
  fraction of integers with positive denominator; `PyNum.toRat` maps it to
  Mathlib's `ℚ` for the mathematical lemmas.  A sample is `Option PyNum`
  with `none` standing for NaN (the missing-data marker): `math.isnan d`
  becomes `d = none`, `_isnum d` becomes `d.isSome`.
* Python list indexing (`l[i]`, `l[i] = v`) raises `IndexError` when out of
  range and wraps negative indices; this is modelled by `pyGet` / `pySet`
  returning `Except PyErr _`.
* `raise ValueError(...)` becomes `Except.error PyErr.valueError`.
* Python 3 `round` (round half to even, returning an int) is
  `PyNum.round`; `math.floor` / `math.ceil` are `PyNum.floor` /
  `PyNum.ceil` (integer division by the positive denominator).
* The `cfg` dictionary is a record of optional fields; `cfg.get(k, d)`
  becomes `field.getD d`.  The label format string `'{:8.2f} '` is modelled
  by the executable formatter `fmt82`; a user-supplied format string is
  modelled as an abstract function `PyNum → String` (the formatting itself is
  Python's stdlib, outside the repository).
-/

namespace AsciiChart

/-- A Python float value: an unreduced fraction with positive denominator. -/
structure PyNum : Type where
  num : ℤ
  den : ℤ
  pos : 0 < den

instance : DecidableEq PyNum := fun a b =>
  if h : a.num = b.num ∧ a.den = b.den then
    isTrue (by
      obtain ⟨an, ad, ap⟩ := a
      obtain ⟨bn, bd, bp⟩ := b
      obtain ⟨h1, h2⟩ := h
      cases h1
      cases h2
      rfl)
  else
    isFalse (fun he => h (by cases he; exact ⟨rfl, rfl⟩))

namespace PyNum

/-- Embedding of an integer. -/
def ofInt (n : ℤ) : PyNum := ⟨n, 1, zero_lt_one⟩

/-- Value of a `PyNum` as a rational number. -/
def toRat (a : PyNum) : ℚ := (a.num : ℚ) / (a.den : ℚ)

/-- Strict comparison of values (denominators are positive). -/
def lt (a b : PyNum) : Prop := a.num * b.den < b.num * a.den

instance decLt (a b : PyNum) : Decidable (lt a b) := Int.decLt _ _

def le (a b : PyNum) : Prop := a.num * b.den ≤ b.num * a.den

instance decLe (a b : PyNum) : Decidable (le a b) := Int.decLe _ _

/-- Python `min(a, b)`: keeps the first argument on ties. -/
def pymin (a b : PyNum) : PyNum := if lt b a then b else a

/-- Python `max(a, b)`: keeps the first argument on ties. -/
def pymax (a b : PyNum) : PyNum := if lt a b then b else a

def sub (a b : PyNum) : PyNum :=
  ⟨a.num * b.den - b.num * a.den, a.den * b.den, mul_pos a.pos b.pos⟩

def mul (a b : PyNum) : PyNum :=
  ⟨a.num * b.num, a.den * b.den, mul_pos a.pos b.pos⟩

/-- True division.  The zero-divisor branch returns a junk value: in the
source both divisions are guarded (`interval > 0`, `rows if rows else 1`),
so a zero divisor is unreachable. -/
def div (a b : PyNum) : PyNum :=
  if h : 0 < b.num then ⟨a.num * b.den, a.den * b.num, mul_pos a.pos h⟩
  else if h2 : b.num < 0 then
    ⟨-(a.num * b.den), -(a.den * b.num), by
      have := mul_neg_of_pos_of_neg a.pos h2
      omega⟩
  else ofInt 0

/-- Python `math.floor`: Euclidean division by the positive denominator. -/
def floor (a : PyNum) : ℤ := a.num / a.den

/-- Python `math.ceil`. -/
def ceil (a : PyNum) : ℤ := -((-a.num) / a.den)

/-- Python 3 `round`: round half to even, on the exact value. -/
def round (a : PyNum) : ℤ :=
  if 2 * (a.num - floor a * a.den) < a.den then floor a
  else if a.den < 2 * (a.num - floor a * a.den) then floor a + 1
  else if floor a % 2 = 0 then floor a else floor a + 1

end PyNum

inductive PyErr : Type
  | valueError
  | indexError
deriving DecidableEq

abbrev Exc (α : Type) : Type := Except PyErr α

/-- Python index adjustment: a negative index wraps once by the length. -/
def pyIdx (len : ℕ) (i : ℤ) : ℤ := if i < 0 then i + len else i

/-- Python `l[i]`: negative indices wrap once by `len l`; anything still out
of range raises `IndexError`. -/
def pyGet {α : Type} (l : List α) (i : ℤ) : Exc α :=
  if pyIdx l.length i < 0 then .error .indexError
  else
    match l.get? (pyIdx l.length i).toNat with
    | some a => .ok a
    | none => .error .indexError

/-- Python `l[i] = v` as a functional update, same index rules as `pyGet`. -/
def pySet {α : Type} (l : List α) (i : ℤ) (v : α) : Exc (List α) :=
  if pyIdx l.length i < 0 then .error .indexError
  else if (pyIdx l.length i).toNat < l.length then .ok (l.set (pyIdx l.length i).toNat v)
  else .error .indexError

/-- The character grid: a list of rows, each row a list of cell strings
(a cell may hold a whole label or a colour-wrapped glyph). -/
abbrev Grid : Type := List (List String)

/-- Python `result[r][c] = v`. -/
def setCell (g : Grid) (r c : ℤ) (v : String) : Exc Grid := do
  let row ← pyGet g r
  let row' ← pySet row c v
  pySet g r row'

/-- Total cell reader used only in specifications (out of range reads ""). -/
def getCell (g : Grid) (r c : ℕ) : String :=
  (((g.get? r).getD []).get? c).getD ""

/-- Python `range(a, b)` over integers. -/
def pyRange (a b : ℤ) : List ℤ :=
  (List.range (b - a).toNat).map (fun k => a + k)

/-- Decimal digit character. -/
def digitChar (d : ℕ) : Char := Char.ofNat (48 + d % 10)

/-- Decimal digits of a natural number (fuel-based structural recursion). -/
def natStrAux : ℕ → ℕ → List Char
  | 0, _ => []
  | fuel + 1, n => if n < 10 then [digitChar n] else natStrAux fuel (n / 10) ++ [digitChar (n % 10)]

def natStr (n : ℕ) : String := String.mk (natStrAux (n + 1) n)

/-- Left-pad with blanks to width 8. -/
def padLeft8 (s : String) : String :=
  String.mk (List.replicate (8 - s.length) ' ') ++ s

/-- The default label template `'{:8.2f} '`: fixed two decimals, right
aligned in eight columns, one trailing blank. -/
def fmt82 (q : PyNum) : String :=
  let c : ℤ := (q.mul (PyNum.ofInt 100)).round
  let a : ℕ := c.natAbs
  let core : String :=
    (if c < 0 then "-" else "") ++ natStr (a / 100) ++ "." ++
      String.mk [digitChar (a / 10 % 10), digitChar (a % 10)]
  padLeft8 core ++ " "

/-- The optional configuration dictionary. -/
structure Cfg : Type where
  minimum : Option PyNum := none
  maximum : Option PyNum := none
  height : Option PyNum := none
  offset : Option ℤ := none
  symbols : Option (List String) := none
  colors : Option (List String) := none
  fmt : Option (PyNum → String) := none

def Cfg.empty : Cfg := {}

def defaultSymbols : List String :=
  ["┼", "┤", "╶", "╴", "─", "╰", "╭", "╮", "╯", "│"]

/-- The ANSI reset escape sequence `'\033[0m'`. -/
def resetCode : String := "\x1b[0m"

/-- The min-accumulating pass over all samples; Python's `min(acc, nan)`
keeps `acc`, so NaN samples (`none`) are skipped. -/
def seriesMin (m : PyNum) (s : List (List (Option PyNum))) : PyNum :=
  s.foldl (fun acc row =>
    row.foldl (fun a x => match x with | some v => a.pymin v | none => a) acc) m

def seriesMax (m : PyNum) (s : List (List (Option PyNum))) : PyNum :=
  s.foldl (fun acc row =>
    row.foldl (fun a x => match x with | some v => a.pymax v | none => a) acc) m

def resolvedMin (s : List (List (Option PyNum))) (cfg : Cfg) : PyNum :=
  seriesMin (cfg.minimum.getD (PyNum.ofInt 0)) s

def resolvedMax (s : List (List (Option PyNum))) (cfg : Cfg) : PyNum :=
  seriesMax (cfg.maximum.getD (PyNum.ofInt 0)) s

def intervalR (s : List (List (Option PyNum))) (cfg : Cfg) : PyNum :=
  (resolvedMax s cfg).sub (resolvedMin s cfg)

def offsetR (cfg : Cfg) : ℤ := cfg.offset.getD 3

def heightR (s : List (List (Option PyNum))) (cfg : Cfg) : PyNum :=
  cfg.height.getD (intervalR s cfg)

def ratioR (s : List (List (Option PyNum))) (cfg : Cfg) : PyNum :=
  if PyNum.lt (PyNum.ofInt 0) (intervalR s cfg) then
    (heightR s cfg).div (intervalR s cfg)
  else PyNum.ofInt 1

def min2R (s : List (List (Option PyNum))) (cfg : Cfg) : ℤ :=
  ((resolvedMin s cfg).mul (ratioR s cfg)).floor

def max2R (s : List (List (Option PyNum))) (cfg : Cfg) : ℤ :=
  ((resolvedMax s cfg).mul (ratioR s cfg)).ceil

/-- The `clamp` helper defined inside `plot`: `min(max(n, minimum), maximum)`. -/
def pyClamp (n lo hi : PyNum) : PyNum := (n.pymax lo).pymin hi

/-- The `scaled` helper defined inside `plot`. -/
def scaledR (s : List (List (Option PyNum))) (cfg : Cfg) (y : PyNum) : ℤ :=
  ((pyClamp y (resolvedMin s cfg) (resolvedMax s cfg)).mul (ratioR s cfg)).round
    - min2R s cfg

def rowsR (s : List (List (Option PyNum))) (cfg : Cfg) : ℤ :=
  max2R s cfg - min2R s cfg

def widthR (s : List (List (Option PyNum))) (cfg : Cfg) : ℤ :=
  s.foldl (fun w t => max w (t.length : ℤ)) 0 + offsetR cfg

def resolvedColors (s : List (List (Option PyNum))) (cfg : Cfg) : List String :=
  cfg.colors.getD (List.replicate (s.length + 1) resetCode)

def resolvedSymbols (cfg : Cfg) : List String :=
  cfg.symbols.getD defaultSymbols

def fmtR (cfg : Cfg) : PyNum → String := cfg.fmt.getD fmt82

/-- The unscaled value whose label is printed on axis row `y - min2`:
`maximum - ((y - min2) * interval / (rows if rows else 1))`. -/
def labelValue (maximum interval : PyNum) (min2 rows y : ℤ) : PyNum :=
  maximum.sub (((PyNum.ofInt (y - min2)).mul interval).div
    (PyNum.ofInt (if rows = 0 then 1 else rows)))

/-- One iteration of the axis-and-labels loop (`for y in range(min2, max2 + 1)`):
write the label cell, then the tick glyph (`symbols[0]` when `y == 0`,
otherwise `symbols[1]`). -/
def axisStep (placeholder : PyNum → String) (symbols : List String) (offset min2 : ℤ)
    (maximum interval : PyNum) (rows : ℤ) (g : Grid) (y : ℤ) : Exc Grid := do
  let label := placeholder (labelValue maximum interval min2 rows y)
  let g1 ← setCell g (y - min2) (max (offset - (label.length : ℤ)) 0) label
  let t ← pyGet symbols (if y = 0 then 0 else 1)
  setCell g1 (y - min2) (offset - 1) t

/-- The stamp before the main loop: if `series[0][0]` is numeric, write the
bare `symbols[0]` glyph at its row in the tick column. -/
def firstTick (symbols : List String) (rows offset : ℤ) (scaled : PyNum → ℤ)
    (d0 : Option PyNum) (g : Grid) : Exc Grid :=
  match d0 with
  | some v => do
      let t ← pyGet symbols 0
      setCell g (rows - scaled v) (offset - 1) t
  | none => .ok g

/-- The body of the line-painting loop for one adjacent pair `(d0, d1)` at
positions `(x, x + 1)` of series `i`. -/
def paintPair (colors symbols : List String) (rows offset : ℤ) (scaled : PyNum → ℤ)
    (i x : ℤ) (d0 d1 : Option PyNum) (g : Grid) : Exc Grid :=
  match d0, d1 with
  | none, none => .ok g
  | none, some v1 => do
      let c ← pyGet colors i
      let s ← pyGet symbols 2
      let cl ← pyGet colors (-1)
      setCell g (rows - scaled v1) (x + offset) (c ++ s ++ cl)
  | some v0, none => do
      let c ← pyGet colors i
      let s ← pyGet symbols 3
      let cl ← pyGet colors (-1)
      setCell g (rows - scaled v0) (x + offset) (c ++ s ++ cl)
  | some v0, some v1 =>
      if scaled v0 = scaled v1 then do
        let c ← pyGet colors i
        let s ← pyGet symbols 4
        let cl ← pyGet colors (-1)
        setCell g (rows - scaled v0) (x + offset) (c ++ s ++ cl)
      else do
        let c ← pyGet colors i
        let s1 ← pyGet symbols (if scaled v1 < scaled v0 then 5 else 6)
        let cl ← pyGet colors (-1)
        let g1 ← setCell g (rows - scaled v1) (x + offset) (c ++ s1 ++ cl)
        let c2 ← pyGet colors i
        let s2 ← pyGet symbols (if scaled v1 < scaled v0 then 7 else 8)
        let cl2 ← pyGet colors (-1)
        let g2 ← setCell g1 (rows - scaled v0) (x + offset) (c2 ++ s2 ++ cl2)
        (pyRange (min (scaled v0) (scaled v1) + 1) (max (scaled v0) (scaled v1))).foldlM
          (fun h y => do
            let c3 ← pyGet colors i
            let s3 ← pyGet symbols 9
            let cl3 ← pyGet colors (-1)
            setCell h (rows - y) (x + offset) (c3 ++ s3 ++ cl3)) g2

/-- The nested main loop: for every series `i`, for every adjacent pair. -/
def seriesPaint (series : List (List (Option PyNum))) (colors symbols : List String)
    (rows offset : ℤ) (scaled : PyNum → ℤ) (g : Grid) : Exc Grid :=
  (pyRange 0 series.length).foldlM (fun g i => do
    let si ← pyGet series i
    (pyRange 0 ((si.length : ℤ) - 1)).foldlM (fun g x => do
      let d0 ← pyGet si x
      let d1 ← pyGet si (x + 1)
      paintPair colors symbols rows offset scaled i x d0 d1 g) g) g

/-- The freshly allocated space-filled grid: `(rows + 1) × width`. -/
def emptyGrid (series : List (List (Option PyNum))) (cfg : Cfg) : Grid :=
  List.replicate (rowsR series cfg + 1).toNat
    (List.replicate (widthR series cfg).toNat " ")

/-- Everything `plot` does after the `minimum > maximum` check: allocate the
grid, paint axis and labels, stamp the first-value tick, paint the lines. -/
def plotBody (series : List (List (Option PyNum))) (cfg : Cfg) : Exc Grid := do
  let g ← (pyRange (min2R series cfg) (max2R series cfg + 1)).foldlM
      (axisStep (fmtR cfg) (resolvedSymbols cfg) (offsetR cfg) (min2R series cfg)
        (resolvedMax series cfg) (intervalR series cfg) (rowsR series cfg))
      (emptyGrid series cfg)
  let s0 ← pyGet series 0
  let d0 ← pyGet s0 0
  let g ← firstTick (resolvedSymbols cfg) (rowsR series cfg) (offsetR cfg)
      (scaledR series cfg) d0 g
  seriesPaint series (resolvedColors series cfg) (resolvedSymbols cfg)
    (rowsR series cfg) (offsetR cfg) (scaledR series cfg) g

/-- The grid computed by `plot` on an already-nested series collection
(after the `len(series) == 0` test has passed). -/
def plotGridCore (series : List (List (Option PyNum))) (cfg : Cfg) : Exc Grid :=
  if PyNum.lt (resolvedMax series cfg) (resolvedMin series cfg) then .error .valueError
  else plotBody series cfg

/-- Python whitespace characters stripped by `str.rstrip()`. -/
def pyWs : List Char := [' ', '\t', '\n', '\x0d', '\x0b', '\x0c']

def pyRstrip (s : String) : String :=
  String.mk ((s.data.reverse.dropWhile (fun c => c ∈ pyWs)).reverse)

/-- Serialization: join each row, strip trailing whitespace, join rows
with newlines. -/
def serialize (g : Grid) : String :=
  String.intercalate "\n" (g.map (fun row => pyRstrip (String.join row)))

/-- The `plot` function on a collection of series (the nested-input path). -/
def plot (series : List (List (Option PyNum))) (cfg : Cfg) : Exc String :=
  if series.length = 0 then .ok ""
  else (plotGridCore series cfg).map serialize

/-- The `plot` function on a flat series (the `not isinstance(series[0], list)` path):
empty or all-NaN input short-circuits to `''`, otherwise the series is
wrapped and rendered. -/
def plotFlat (series : List (Option PyNum)) (cfg : Cfg) : Exc String :=
  if series.length = 0 then .ok ""
  else if series.all (fun n => n.isNone) then .ok ""
  else plot [series] cfg

/-- Extractor used only in specification statements. -/
def gridOf (e : Exc Grid) : Grid := e.toOption.getD []

/-- Success test used only in specification statements. -/
def isOkB {α : Type} (e : Exc α) : Bool :=
  match e with
  | .ok _ => true
  | .error _ => false

/-- All numeric samples, flattened in order (specification-side helper). -/
def numericSamples (s : List (List (Option PyNum))) : List PyNum :=
  s.foldr (fun row acc => row.filterMap id ++ acc) []

/-- The values of all numeric samples (specification-side helper). -/
def numericValues (s : List (List (Option PyNum))) : List ℚ :=
  (numericSamples s).map PyNum.toRat

/-- Smallest element of a list, `none` when empty (specification-side). -/
def listMin : List ℚ → Option ℚ
  | [] => none
  | a :: l => some (l.foldl min a)

/-- Largest element of a list, `none` when empty (specification-side). -/
def listMax : List ℚ → Option ℚ
  | [] => none
  | a :: l => some (l.foldl max a)

/-! ### Bridge lemmas: `PyNum` operations compute the rational value
semantics -/

namespace PyNum

theorem den_cast_pos (a : PyNum) : (0 : ℚ) < (a.den : ℚ) := by exact_mod_cast a.pos

theorem den_cast_ne (a : PyNum) : (a.den : ℚ) ≠ 0 := ne_of_gt a.den_cast_pos

theorem toRat_ofInt (n : ℤ) : (ofInt n).toRat = (n : ℚ) := by
  unfold ofInt toRat
  simp

theorem toRat_lt {a b : PyNum} : lt a b ↔ a.toRat < b.toRat := by
  unfold lt toRat
  rw [div_lt_div_iff₀ a.den_cast_pos b.den_cast_pos]
  exact_mod_cast Iff.rfl

theorem toRat_le {a b : PyNum} : le a b ↔ a.toRat ≤ b.toRat := by
  unfold le toRat
  rw [div_le_div_iff₀ a.den_cast_pos b.den_cast_pos]
  exact_mod_cast Iff.rfl

theorem toRat_sub (a b : PyNum) : (a.sub b).toRat = a.toRat - b.toRat := by
  have ha := a.den_cast_ne
  have hb := b.den_cast_ne
  unfold sub toRat
  push_cast
  field_simp
  ring

theorem toRat_mul (a b : PyNum) : (a.mul b).toRat = a.toRat * b.toRat := by
  unfold mul toRat
  push_cast
  rw [div_mul_div_comm]

theorem toRat_div_pos (a b : PyNum) (h : 0 < b.num) :
    (a.div b).toRat = a.toRat / b.toRat := by
  unfold div
  rw [dif_pos h]
  have ha := a.den_cast_ne
  have hbd := b.den_cast_ne
  have hbn : ((b.num : ℚ)) ≠ 0 := by exact_mod_cast ne_of_gt h
  unfold toRat
  push_cast
  field_simp

theorem lt_ofInt_zero_iff (b : PyNum) : lt (ofInt 0) b ↔ 0 < b.num := by
  unfold lt ofInt
  simp

theorem toRat_pymin (a b : PyNum) : (a.pymin b).toRat = min a.toRat b.toRat := by
  unfold pymin
  split
  · next h => exact (min_eq_right (le_of_lt (toRat_lt.mp h))).symm
  · next h =>
      have hab : a.toRat ≤ b.toRat := le_of_not_lt (fun hc => h (toRat_lt.mpr hc))
      exact (min_eq_left hab).symm

theorem toRat_pymax (a b : PyNum) : (a.pymax b).toRat = max a.toRat b.toRat := by
  unfold pymax
  split
  · next h => exact (max_eq_right (le_of_lt (toRat_lt.mp h))).symm
  · next h =>
      have hab : b.toRat ≤ a.toRat := le_of_not_lt (fun hc => h (toRat_lt.mpr hc))
      exact (max_eq_left hab).symm

theorem floor_toRat (a : PyNum) : a.floor = ⌊a.toRat⌋ := by
  have h : ((a.den.toNat : ℤ)) = a.den := Int.toNat_of_nonneg (le_of_lt a.pos)
  have hq : ((a.den.toNat : ℕ) : ℚ) = (a.den : ℚ) := by exact_mod_cast h
  unfold floor toRat
  calc a.num / a.den = a.num / (a.den.toNat : ℤ) := by rw [h]
    _ = ⌊((a.num : ℚ) / ((a.den.toNat : ℕ) : ℚ))⌋ :=
        (Rat.floor_intCast_div_natCast a.num a.den.toNat).symm
    _ = ⌊(a.num : ℚ) / (a.den : ℚ)⌋ := by rw [hq]

theorem ceil_toRat (a : PyNum) : a.ceil = ⌈a.toRat⌉ := by
  unfold ceil
  rw [show ((-a.num) / a.den) = floor ⟨-a.num, a.den, a.pos⟩ from rfl, floor_toRat]
  have htr : (PyNum.mk (-a.num) a.den a.pos).toRat = -a.toRat := by
    unfold toRat
    push_cast
    ring
  rw [htr, Int.floor_neg, neg_neg]

theorem toRat_sub_floor (a : PyNum) :
    a.toRat - (a.floor : ℚ) = ((a.num - a.floor * a.den : ℤ) : ℚ) / (a.den : ℚ) := by
  have ha := a.den_cast_ne
  unfold toRat
  push_cast
  field_simp
  ring

/-- The `round` value always lands between `floor` and `ceil`. -/
theorem round_bounds (a : PyNum) : a.floor ≤ a.round ∧ a.round ≤ a.ceil := by
  have hfc : a.floor ≤ a.ceil := by
    rw [floor_toRat, ceil_toRat]
    exact Int.floor_le_ceil _
  have hsucc : ¬ 2 * (a.num - a.floor * a.den) < a.den → a.floor + 1 ≤ a.ceil := by
    intro hc
    have hrem : 0 < a.num - a.floor * a.den := by
      have := a.pos
      omega
    have hlt : (a.floor : ℚ) < a.toRat := by
      have hpos : (0:ℚ) < ((a.num - a.floor * a.den : ℤ) : ℚ) / (a.den : ℚ) :=
        div_pos (by exact_mod_cast hrem) a.den_cast_pos
      have hk := toRat_sub_floor a
      linarith
    rw [ceil_toRat]
    have := Int.lt_ceil.mpr hlt
    omega
  constructor
  · unfold round
    split_ifs <;> omega
  · unfold round
    split_ifs with c1 c2 c3
    · exact hfc
    · exact hsucc c1
    · exact hfc
    · exact hsucc c1

end PyNum

/-! ### Error classification: only the explicit range check raises
`ValueError`; every other failure is an `IndexError` -/

theorem ok_bind {α β : Type} (a : α) (f : α → Exc β) :
    (Except.ok a >>= f : Exc β) = f a := rfl

theorem error_bind {α β : Type} (e : PyErr) (f : α → Exc β) :
    (Except.error e >>= f : Exc β) = Except.error e := rfl

theorem bind_ne_vE {α β : Type} {f : Exc α} {g : α → Exc β}
    (hf : f ≠ .error .valueError) (hg : ∀ a, g a ≠ .error .valueError) :
    (f >>= g) ≠ .error .valueError := by
  cases f with
  | error e =>
      rw [error_bind]
      intro h
      injection h with h'
      exact hf (by rw [h'])
  | ok a => rw [ok_bind]; exact hg a

theorem foldlM_ne_vE {α β : Type} (step : α → β → Exc α)
    (hstep : ∀ a b, step a b ≠ .error .valueError) :
    ∀ (l : List β) (a : α), l.foldlM step a ≠ .error .valueError := by
  intro l
  induction l with
  | nil => intro a h; exact Except.noConfusion h
  | cons b t ih =>
      intro a
      rw [List.foldlM_cons]
      exact bind_ne_vE (hstep a b) fun a' => ih a'

theorem pyGet_ne_vE {α : Type} (l : List α) (i : ℤ) :
    pyGet l i ≠ .error .valueError := by
  intro h
  unfold pyGet at h
  split at h
  · injection h with h'; exact PyErr.noConfusion h'
  · split at h
    · exact Except.noConfusion h
    · injection h with h'; exact PyErr.noConfusion h'

theorem pySet_ne_vE {α : Type} (l : List α) (i : ℤ) (v : α) :
    pySet l i v ≠ .error .valueError := by
  intro h
  unfold pySet at h
  split at h
  · injection h with h'; exact PyErr.noConfusion h'
  · split at h
    · exact Except.noConfusion h
    · injection h with h'; exact PyErr.noConfusion h'

theorem setCell_ne_vE (g : Grid) (r c : ℤ) (v : String) :
    setCell g r c v ≠ .error .valueError := by
  unfold setCell
  exact bind_ne_vE (pyGet_ne_vE g r) fun row =>
    bind_ne_vE (pySet_ne_vE row c v) fun row' => pySet_ne_vE g r row'

theorem axisStep_ne_vE (ph : PyNum → String) (symbols : List String) (offset min2 : ℤ)
    (maximum interval : PyNum) (rows : ℤ) (g : Grid) (y : ℤ) :
    axisStep ph symbols offset min2 maximum interval rows g y ≠ .error .valueError := by
  unfold axisStep
  exact bind_ne_vE (setCell_ne_vE _ _ _ _) fun g1 =>
    bind_ne_vE (pyGet_ne_vE _ _) fun t => setCell_ne_vE _ _ _ _

theorem firstTick_ne_vE (symbols : List String) (rows offset : ℤ) (scaled : PyNum → ℤ)
    (d0 : Option PyNum) (g : Grid) :
    firstTick symbols rows offset scaled d0 g ≠ .error .valueError := by
  cases d0 with
  | none => intro h; exact Except.noConfusion h
  | some v =>
      show (do
        let t ← pyGet symbols 0
        setCell g (rows - scaled v) (offset - 1) t) ≠ _
      exact bind_ne_vE (pyGet_ne_vE _ _) fun t => setCell_ne_vE _ _ _ _

theorem paintPair_ne_vE (colors symbols : List String) (rows offset : ℤ)
    (scaled : PyNum → ℤ) (i x : ℤ) (d0 d1 : Option PyNum) (g : Grid) :
    paintPair colors symbols rows offset scaled i x d0 d1 g ≠ .error .valueError := by
  cases d0 with
  | none =>
      cases d1 with
      | none => intro h; exact Except.noConfusion h
      | some v1 =>
          exact bind_ne_vE (pyGet_ne_vE _ _) fun c =>
            bind_ne_vE (pyGet_ne_vE _ _) fun s =>
            bind_ne_vE (pyGet_ne_vE _ _) fun cl => setCell_ne_vE _ _ _ _
  | some v0 =>
      cases d1 with
      | none =>
          exact bind_ne_vE (pyGet_ne_vE _ _) fun c =>
            bind_ne_vE (pyGet_ne_vE _ _) fun s =>
            bind_ne_vE (pyGet_ne_vE _ _) fun cl => setCell_ne_vE _ _ _ _
      | some v1 =>
          simp only [paintPair]
          split
          · exact bind_ne_vE (pyGet_ne_vE _ _) fun c =>
              bind_ne_vE (pyGet_ne_vE _ _) fun s =>
              bind_ne_vE (pyGet_ne_vE _ _) fun cl => setCell_ne_vE _ _ _ _
          · exact bind_ne_vE (pyGet_ne_vE _ _) fun c =>
              bind_ne_vE (pyGet_ne_vE _ _) fun s1 =>
              bind_ne_vE (pyGet_ne_vE _ _) fun cl =>
              bind_ne_vE (setCell_ne_vE _ _ _ _) fun g1 =>
              bind_ne_vE (pyGet_ne_vE _ _) fun c2 =>
              bind_ne_vE (pyGet_ne_vE _ _) fun s2 =>
              bind_ne_vE (pyGet_ne_vE _ _) fun cl2 =>
              bind_ne_vE (setCell_ne_vE _ _ _ _) fun g2 =>
              foldlM_ne_vE _ (fun h' y =>
                bind_ne_vE (pyGet_ne_vE _ _) fun c3 =>
                bind_ne_vE (pyGet_ne_vE _ _) fun s3 =>
                bind_ne_vE (pyGet_ne_vE _ _) fun cl3 => setCell_ne_vE _ _ _ _) _ g2

theorem seriesPaint_ne_vE (series : List (List (Option PyNum))) (colors symbols : List String)
    (rows offset : ℤ) (scaled : PyNum → ℤ) (g : Grid) :
    seriesPaint series colors symbols rows offset scaled g ≠ .error .valueError := by
  unfold seriesPaint
  exact foldlM_ne_vE _ (fun g' i =>
    bind_ne_vE (pyGet_ne_vE _ _) fun si =>
      foldlM_ne_vE _ (fun g'' x =>
        bind_ne_vE (pyGet_ne_vE _ _) fun d0 =>
        bind_ne_vE (pyGet_ne_vE _ _) fun d1 =>
          paintPair_ne_vE colors symbols rows offset scaled i x d0 d1 g'') _ g') _ g

theorem plotBody_ne_vE (series : List (List (Option PyNum))) (cfg : Cfg) :
    plotBody series cfg ≠ .error .valueError := by
  unfold plotBody
  exact bind_ne_vE
    (foldlM_ne_vE _ (fun g y => axisStep_ne_vE _ _ _ _ _ _ _ g y) _ _) fun g =>
    bind_ne_vE (pyGet_ne_vE _ _) fun s0 =>
    bind_ne_vE (pyGet_ne_vE _ _) fun d0 =>
    bind_ne_vE (firstTick_ne_vE _ _ _ _ d0 g) fun g' =>
    seriesPaint_ne_vE _ _ _ _ _ _ g'

/-! ### Range-resolution fold lemmas -/

theorem rowFoldMin_toRat (row : List (Option PyNum)) : ∀ a : PyNum,
    (row.foldl (fun a x => match x with | some v => a.pymin v | none => a) a).toRat
      = ((row.filterMap id).map PyNum.toRat).foldl min a.toRat := by
  induction row with
  | nil => intro a; rfl
  | cons h t ih =>
      intro a
      cases h <;> simp [List.filterMap_cons, ih, PyNum.toRat_pymin]

theorem rowFoldMax_toRat (row : List (Option PyNum)) : ∀ a : PyNum,
    (row.foldl (fun a x => match x with | some v => a.pymax v | none => a) a).toRat
      = ((row.filterMap id).map PyNum.toRat).foldl max a.toRat := by
  induction row with
  | nil => intro a; rfl
  | cons h t ih =>
      intro a
      cases h <;> simp [List.filterMap_cons, ih, PyNum.toRat_pymax]

theorem seriesMin_toRat (s : List (List (Option PyNum))) : ∀ m : PyNum,
    (seriesMin m s).toRat = (numericValues s).foldl min m.toRat := by
  induction s with
  | nil => intro m; rfl
  | cons r t ih =>
      intro m
      have h1 : seriesMin m (r :: t)
          = seriesMin (r.foldl (fun a x => match x with | some v => a.pymin v | none => a) m) t := rfl
      have h2 : numericValues (r :: t)
          = (r.filterMap id).map PyNum.toRat ++ numericValues t := by
        unfold numericValues numericSamples
        simp
      rw [h1, ih, h2, List.foldl_append, rowFoldMin_toRat]

theorem seriesMax_toRat (s : List (List (Option PyNum))) : ∀ m : PyNum,
    (seriesMax m s).toRat = (numericValues s).foldl max m.toRat := by
  induction s with
  | nil => intro m; rfl
  | cons r t ih =>
      intro m
      have h1 : seriesMax m (r :: t)
          = seriesMax (r.foldl (fun a x => match x with | some v => a.pymax v | none => a) m) t := rfl
      have h2 : numericValues (r :: t)
          = (r.filterMap id).map PyNum.toRat ++ numericValues t := by
        unfold numericValues numericSamples
        simp
      rw [h1, ih, h2, List.foldl_append, rowFoldMax_toRat]

theorem foldl_min_le (l : List ℚ) : ∀ a : ℚ, l.foldl min a ≤ a := by
  induction l with
  | nil => intro a; exact le_refl a
  | cons h t ih => intro a; exact le_trans (ih (min a h)) (min_le_left a h)

theorem le_foldl_max (l : List ℚ) : ∀ a : ℚ, a ≤ l.foldl max a := by
  induction l with
  | nil => intro a; exact le_refl a
  | cons h t ih => intro a; exact le_trans (le_max_left a h) (ih (max a h))

theorem foldl_min_cons_comm (t : List ℚ) : ∀ a h : ℚ,
    (h :: t).foldl min a = min a (t.foldl min h) := by
  induction t with
  | nil => intro a h; rfl
  | cons k t' ih =>
      intro a h
      rw [show (h :: k :: t').foldl min a = (k :: t').foldl min (min a h) from rfl,
        ih (min a h) k, ih h k, min_assoc]

theorem foldl_max_cons_comm (t : List ℚ) : ∀ a h : ℚ,
    (h :: t).foldl max a = max a (t.foldl max h) := by
  induction t with
  | nil => intro a h; rfl
  | cons k t' ih =>
      intro a h
      rw [show (h :: k :: t').foldl max a = (k :: t').foldl max (max a h) from rfl,
        ih (max a h) k, ih h k, max_assoc]

/-- With no minimum override the resolved minimum is at most the seed 0. -/
theorem resolvedMin_le_zero (s : List (List (Option PyNum))) (cfg : Cfg)
    (hmin : cfg.minimum = none) : (resolvedMin s cfg).toRat ≤ 0 := by
  unfold resolvedMin
  rw [hmin]
  show (seriesMin ((none : Option PyNum).getD (PyNum.ofInt 0)) s).toRat ≤ 0
  rw [Option.getD_none, seriesMin_toRat, PyNum.toRat_ofInt]
  exact_mod_cast foldl_min_le _ 0

/-- With no maximum override the resolved maximum is at least the seed 0. -/
theorem zero_le_resolvedMax (s : List (List (Option PyNum))) (cfg : Cfg)
    (hmax : cfg.maximum = none) : 0 ≤ (resolvedMax s cfg).toRat := by
  unfold resolvedMax
  rw [hmax]
  show 0 ≤ (seriesMax ((none : Option PyNum).getD (PyNum.ofInt 0)) s).toRat
  rw [Option.getD_none, seriesMax_toRat, PyNum.toRat_ofInt]
  exact_mod_cast le_foldl_max _ 0

/-! ### Claim theorems -/

/-- C1: the claim says that with overrides `minimum = 2, maximum = 3` on the
series `[1,2,3,4]` the resolved range is `[2,3]` and the samples 1 and 4 are
clamped to the rows of 2 and 3.  The code instead merges the overrides with
the data (`minimum = min(minimum, sample)`), so the resolved range is `[1,4]`
and no clamping happens: sample 1 lands on a different grid row than the
value 2, and sample 4 on a different row than the value 3 — contradicting
both the claim and the function's own docstring examples. -/
theorem c1_override_merge_bug :
    resolvedMin [[some (.ofInt 1), some (.ofInt 2), some (.ofInt 3), some (.ofInt 4)]]
        { minimum := some (.ofInt 2), maximum := some (.ofInt 3) } = .ofInt 1 ∧
    resolvedMax [[some (.ofInt 1), some (.ofInt 2), some (.ofInt 3), some (.ofInt 4)]]
        { minimum := some (.ofInt 2), maximum := some (.ofInt 3) } = .ofInt 4 ∧
    scaledR [[some (.ofInt 1), some (.ofInt 2), some (.ofInt 3), some (.ofInt 4)]]
        { minimum := some (.ofInt 2), maximum := some (.ofInt 3) } (.ofInt 1) = 0 ∧
    scaledR [[some (.ofInt 1), some (.ofInt 2), some (.ofInt 3), some (.ofInt 4)]]
        { minimum := some (.ofInt 2), maximum := some (.ofInt 3) } (.ofInt 2) = 1 ∧
    scaledR [[some (.ofInt 1), some (.ofInt 2), some (.ofInt 3), some (.ofInt 4)]]
        { minimum := some (.ofInt 2), maximum := some (.ofInt 3) } (.ofInt 4) = 3 ∧
    scaledR [[some (.ofInt 1), some (.ofInt 2), some (.ofInt 3), some (.ofInt 4)]]
        { minimum := some (.ofInt 2), maximum := some (.ofInt 3) } (.ofInt 3) = 2 := by
  refine ⟨by decide, by decide, by decide, by decide, by decide, by decide⟩

/-- C2: with no minimum/maximum overrides the resolved minimum is the smaller
of 0 and the smallest numeric sample value, the resolved maximum the larger
of 0 and the largest numeric sample value; `interval = maximum - minimum`,
`height` defaults to `interval`, and `ratio = height / interval` except that
it is 1 when `interval = 0`. -/
theorem c2_range_resolution (series : List (List (Option PyNum))) (cfg : Cfg)
    (hmin : cfg.minimum = none) (hmax : cfg.maximum = none)
    (m M : ℚ) (hm : listMin (numericValues series) = some m)
    (hM : listMax (numericValues series) = some M) :
    (resolvedMin series cfg).toRat = min 0 m ∧
    (resolvedMax series cfg).toRat = max 0 M ∧
    (intervalR series cfg).toRat
      = (resolvedMax series cfg).toRat - (resolvedMin series cfg).toRat ∧
    (cfg.height = none → heightR series cfg = intervalR series cfg) ∧
    ((intervalR series cfg).toRat = 0 → (ratioR series cfg).toRat = 1) ∧
    ((intervalR series cfg).toRat ≠ 0 →
      (ratioR series cfg).toRat
        = (heightR series cfg).toRat / (intervalR series cfg).toRat) := by
  refine ⟨?_, ?_, PyNum.toRat_sub _ _, ?_, ?_, ?_⟩
  · unfold resolvedMin
    rw [hmin]
    show (seriesMin ((none : Option PyNum).getD (PyNum.ofInt 0)) series).toRat = _
    rw [Option.getD_none, seriesMin_toRat, PyNum.toRat_ofInt]
    cases e : numericValues series with
    | nil => rw [e] at hm; exact Option.noConfusion hm
    | cons h t =>
        rw [e] at hm
        injection hm with hm'
        rw [foldl_min_cons_comm, hm']
        norm_num
  · unfold resolvedMax
    rw [hmax]
    show (seriesMax ((none : Option PyNum).getD (PyNum.ofInt 0)) series).toRat = _
    rw [Option.getD_none, seriesMax_toRat, PyNum.toRat_ofInt]
    cases e : numericValues series with
    | nil => rw [e] at hM; exact Option.noConfusion hM
    | cons h t =>
        rw [e] at hM
        injection hM with hM'
        rw [foldl_max_cons_comm, hM']
        norm_num
  · intro hh
    unfold heightR
    rw [hh]
    rfl
  · intro h0
    have hlt : ¬ PyNum.lt (PyNum.ofInt 0) (intervalR series cfg) := by
      rw [PyNum.toRat_lt, PyNum.toRat_ofInt, h0]
      norm_num
    unfold ratioR
    rw [if_neg hlt, PyNum.toRat_ofInt]
    norm_num
  · intro h0
    have hle : (resolvedMin series cfg).toRat ≤ 0 := resolvedMin_le_zero series cfg hmin
    have hge : 0 ≤ (resolvedMax series cfg).toRat := zero_le_resolvedMax series cfg hmax
    have hnn : 0 ≤ (intervalR series cfg).toRat := by
      unfold intervalR
      rw [PyNum.toRat_sub]
      linarith
    have hpos : PyNum.lt (PyNum.ofInt 0) (intervalR series cfg) := by
      rw [PyNum.toRat_lt, PyNum.toRat_ofInt]
      push_cast
      exact lt_of_le_of_ne hnn (Ne.symm h0)
    unfold ratioR
    rw [if_pos hpos]
    exact PyNum.toRat_div_pos _ _ ((PyNum.lt_ofInt_zero_iff _).mp hpos)

/-- C2 witness: concrete instance on the series `[3, NaN, -2]`. -/
theorem c2_witness :
    (resolvedMin [[some (.ofInt 3), none, some (.ofInt (-2))]] Cfg.empty).toRat
        = min 0 (-2) ∧
    (resolvedMax [[some (.ofInt 3), none, some (.ofInt (-2))]] Cfg.empty).toRat
        = max 0 3 := by
  have h := c2_range_resolution [[some (.ofInt 3), none, some (.ofInt (-2))]]
    Cfg.empty rfl rfl (-2) 3
    (by
      show some (List.foldl min (PyNum.toRat (PyNum.ofInt 3))
        [PyNum.toRat (PyNum.ofInt (-2))]) = some (-2)
      rw [PyNum.toRat_ofInt, PyNum.toRat_ofInt]
      norm_num [min_def])
    (by
      show some (List.foldl max (PyNum.toRat (PyNum.ofInt 3))
        [PyNum.toRat (PyNum.ofInt (-2))]) = some 3
      rw [PyNum.toRat_ofInt, PyNum.toRat_ofInt]
      norm_num [max_def])
  exact ⟨h.1, h.2.1⟩

theorem map_eq_error {α β : Type} (f : α → β) (e : Exc α) (x : PyErr) :
    e.map f = .error x ↔ e = .error x := by
  cases e <;> simp [Except.map]

theorem bind_error_out {α β : Type} {f : Exc α} {g : α → Exc β}
    (hf : f ≠ .error .valueError) (hg : ∀ a, g a = .error .indexError) :
    (f >>= g) = .error .indexError := by
  cases f with
  | error e =>
      rw [error_bind]
      cases e with
      | valueError => exact absurd rfl hf
      | indexError => rfl
  | ok a => rw [ok_bind]; exact hg a

/-- C3 (amended): `plot` raises the invalid-range `ValueError` exactly when
the input is a nonempty collection whose resolved minimum exceeds the
resolved maximum; other failures are `IndexError`, never `ValueError`. -/
theorem c3_invalid_range_iff (series : List (List (Option PyNum))) (cfg : Cfg) :
    plot series cfg = .error .valueError ↔
      series ≠ [] ∧
        (resolvedMax series cfg).toRat < (resolvedMin series cfg).toRat := by
  unfold plot
  by_cases hlen : series.length = 0
  · rw [if_pos hlen]
    have hs : series = [] := List.length_eq_zero.mp hlen
    constructor
    · intro h; exact Except.noConfusion h
    · intro ⟨hne, _⟩; exact absurd hs hne
  · rw [if_neg hlen]
    have hne : series ≠ [] := fun h => hlen (by rw [h]; rfl)
    unfold plotGridCore
    split
    · next hcond =>
        constructor
        · intro _; exact ⟨hne, PyNum.toRat_lt.mp hcond⟩
        · intro _; rfl
    · next hcond =>
        constructor
        · intro h
          exact absurd ((map_eq_error _ _ _).mp h) (plotBody_ne_vE series cfg)
        · intro ⟨_, hlt⟩
          exact absurd (PyNum.toRat_lt.mpr hlt) hcond

/-- C3 witness: a nested input whose inner series are empty together with
`minimum = 5, maximum = 1` overrides triggers the `ValueError`. -/
theorem c3_witness :
    plot [([] : List (Option PyNum))]
      { minimum := some (.ofInt 5), maximum := some (.ofInt 1) } = .error .valueError := by
  refine (c3_invalid_range_iff _ _).mpr ⟨by decide, ?_⟩
  have h : PyNum.lt
      (resolvedMax [([] : List (Option PyNum))]
        { minimum := some (.ofInt 5), maximum := some (.ofInt 1) })
      (resolvedMin [([] : List (Option PyNum))]
        { minimum := some (.ofInt 5), maximum := some (.ofInt 1) }) := by decide
  exact PyNum.toRat_lt.mp h

/-- C3 counterexample: on `[[], [1, 2]]` the resolved minimum 0 does not
exceed the resolved maximum 2, yet `plot` still fails (an `IndexError`
from `series[0][0]`), refuting the claimed "if and only if". -/
theorem c3_counterexample :
    plot [([] : List (Option PyNum)), [some (.ofInt 1), some (.ofInt 2)]] Cfg.empty
        = .error .indexError ∧
    ¬ (resolvedMax [([] : List (Option PyNum)), [some (.ofInt 1), some (.ofInt 2)]]
          Cfg.empty).toRat
        < (resolvedMin [([] : List (Option PyNum)), [some (.ofInt 1), some (.ofInt 2)]]
          Cfg.empty).toRat := by
  constructor
  · rfl
  · intro h
    exact (by decide : ¬ PyNum.lt
        (resolvedMax [([] : List (Option PyNum)), [some (.ofInt 1), some (.ofInt 2)]]
          Cfg.empty)
        (resolvedMin [([] : List (Option PyNum)), [some (.ofInt 1), some (.ofInt 2)]]
          Cfg.empty))
      (PyNum.toRat_lt.mpr h)

/-- C9: every nested input whose first series is empty makes `plot` raise an
uncaught `IndexError` (reading `series[0][0]`), as long as the minimum and
maximum are not overridden (so that the `ValueError` check cannot fire
first); emptiness is checked only for the top-level collection, never for
the inner series. -/
theorem c9_empty_first_series (rest : List (List (Option PyNum))) (cfg : Cfg)
    (h1 : cfg.minimum = none) (h2 : cfg.maximum = none) :
    plot ([] :: rest) cfg = .error .indexError := by
  have hbody : plotBody ([] :: rest) cfg = .error .indexError := by
    unfold plotBody
    exact bind_error_out
      (foldlM_ne_vE _ (fun g y => axisStep_ne_vE _ _ _ _ _ _ _ g y) _ _)
      (fun g => rfl)
  have hnc : ¬ PyNum.lt (resolvedMax ([] :: rest) cfg) (resolvedMin ([] :: rest) cfg) := by
    rw [PyNum.toRat_lt]
    exact not_lt.mpr
      (le_trans (resolvedMin_le_zero _ _ h1) (zero_le_resolvedMax _ _ h2))
  unfold plot
  rw [if_neg (by simp : ¬ (([] :: rest) : List (List (Option PyNum))).length = 0)]
  unfold plotGridCore
  rw [if_neg hnc, hbody]
  rfl

/-- C9 witness: the concrete input `[[], [5]]` with the default
configuration. -/
theorem c9_witness :
    plot [([] : List (Option PyNum)), [some (.ofInt 5)]] Cfg.empty
        = .error .indexError :=
  c9_empty_first_series [[some (.ofInt 5)]] Cfg.empty rfl rfl

theorem pyGet_mem {α : Type} {l : List α} {i : ℤ} {a : α}
    (h : pyGet l i = .ok a) : a ∈ l := by
  unfold pyGet at h
  split at h
  · exact Except.noConfusion h
  · split at h
    · next heq =>
        injection h with h'
        subst h'
        exact List.get?_mem heq
    · exact Except.noConfusion h

theorem init_le_lenFold (s : List (List (Option PyNum))) :
    ∀ b : ℤ, b ≤ s.foldl (fun w t => max w (t.length : ℤ)) b := by
  induction s with
  | nil => intro b; exact le_refl b
  | cons h tl ih =>
      intro b
      rw [List.foldl_cons]
      exact le_trans (le_max_left _ _) (ih _)

theorem length_le_lenFold (s : List (List (Option PyNum))) :
    ∀ (b : ℤ) (t : List (Option PyNum)), t ∈ s →
      (t.length : ℤ) ≤ s.foldl (fun w t => max w (t.length : ℤ)) b := by
  induction s with
  | nil => intro b t ht; cases ht
  | cons h tl ih =>
      intro b t ht
      rw [List.foldl_cons]
      cases ht with
      | head => exact le_trans (le_max_right _ _) (init_le_lenFold tl _)
      | tail _ htl => exact ih _ t htl

/-- C4: under a resolved minimum ≤ maximum, a non-negative height and a
non-negative offset, every scaled sample lies in `[0, rows]`; consequently
the row index `rows - scaled(s)` lies in `[0, rows]` inside the
`(rows + 1)`-row grid, and for every adjacent-pair position `x` of series
`i` the column `x + offset` lies inside the width-`width` grid. -/
theorem c4_scaled_in_bounds (series : List (List (Option PyNum))) (cfg : Cfg)
    (h1 : (resolvedMin series cfg).toRat ≤ (resolvedMax series cfg).toRat)
    (h2 : 0 ≤ (heightR series cfg).toRat)
    (h3 : 0 ≤ offsetR cfg) :
    0 ≤ rowsR series cfg ∧
    (∀ y : PyNum,
      0 ≤ scaledR series cfg y ∧ scaledR series cfg y ≤ rowsR series cfg ∧
      0 ≤ rowsR series cfg - scaledR series cfg y ∧
      rowsR series cfg - scaledR series cfg y < rowsR series cfg + 1) ∧
    (∀ (i x : ℤ) (si : List (Option PyNum)), pyGet series i = .ok si →
      0 ≤ x → x < (si.length : ℤ) - 1 →
      0 ≤ x + offsetR cfg ∧ x + offsetR cfg < widthR series cfg) := by
  have hr : 0 ≤ (ratioR series cfg).toRat := by
    unfold ratioR
    split
    · next hpos =>
        rw [PyNum.toRat_div_pos _ _ ((PyNum.lt_ofInt_zero_iff _).mp hpos)]
        have hint : 0 < (intervalR series cfg).toRat := by
          have := PyNum.toRat_lt.mp hpos
          rw [PyNum.toRat_ofInt] at this
          exact_mod_cast this
        exact div_nonneg h2 (le_of_lt hint)
    · rw [PyNum.toRat_ofInt]
      norm_num
  have hmono : (resolvedMin series cfg).toRat * (ratioR series cfg).toRat
      ≤ (resolvedMax series cfg).toRat * (ratioR series cfg).toRat :=
    mul_le_mul_of_nonneg_right h1 hr
  have hminmax : min2R series cfg ≤ max2R series cfg := by
    unfold min2R max2R
    rw [PyNum.floor_toRat, PyNum.ceil_toRat, PyNum.toRat_mul, PyNum.toRat_mul]
    exact le_trans (Int.floor_le_floor hmono) (Int.floor_le_ceil _)
  have hrows : 0 ≤ rowsR series cfg := by
    unfold rowsR
    omega
  have hsc : ∀ y : PyNum,
      min2R series cfg
        ≤ ((pyClamp y (resolvedMin series cfg) (resolvedMax series cfg)).mul
            (ratioR series cfg)).round ∧
      ((pyClamp y (resolvedMin series cfg) (resolvedMax series cfg)).mul
            (ratioR series cfg)).round ≤ max2R series cfg := by
    intro y
    have hc1 : (resolvedMin series cfg).toRat
        ≤ (pyClamp y (resolvedMin series cfg) (resolvedMax series cfg)).toRat := by
      unfold pyClamp
      rw [PyNum.toRat_pymin, PyNum.toRat_pymax]
      exact le_min (le_max_right _ _) h1
    have hc2 : (pyClamp y (resolvedMin series cfg) (resolvedMax series cfg)).toRat
        ≤ (resolvedMax series cfg).toRat := by
      unfold pyClamp
      rw [PyNum.toRat_pymin]
      exact min_le_right _ _
    have hm1 := mul_le_mul_of_nonneg_right hc1 hr
    have hm2 := mul_le_mul_of_nonneg_right hc2 hr
    constructor
    · have hfl : min2R series cfg
          ≤ ((pyClamp y (resolvedMin series cfg) (resolvedMax series cfg)).mul
              (ratioR series cfg)).floor := by
        unfold min2R
        rw [PyNum.floor_toRat, PyNum.floor_toRat, PyNum.toRat_mul, PyNum.toRat_mul]
        exact Int.floor_le_floor hm1
      exact le_trans hfl (PyNum.round_bounds _).1
    · have hce : ((pyClamp y (resolvedMin series cfg) (resolvedMax series cfg)).mul
              (ratioR series cfg)).ceil ≤ max2R series cfg := by
        unfold max2R
        rw [PyNum.ceil_toRat, PyNum.ceil_toRat, PyNum.toRat_mul, PyNum.toRat_mul]
        exact Int.ceil_le_ceil hm2
      exact le_trans (PyNum.round_bounds _).2 hce
  refine ⟨hrows, ?_, ?_⟩
  · intro y
    have := hsc y
    unfold scaledR rowsR
    unfold rowsR at hrows
    omega
  · intro i x si hget hx0 hx1
    have hmem := pyGet_mem hget
    have hlen := length_le_lenFold series 0 si hmem
    constructor
    · omega
    · unfold widthR
      omega

/-- C4 witness: the series `[[1, 2]]` with default configuration, sample 5. -/
theorem c4_witness :
    0 ≤ scaledR [[some (.ofInt 1), some (.ofInt 2)]] Cfg.empty (.ofInt 5) ∧
    scaledR [[some (.ofInt 1), some (.ofInt 2)]] Cfg.empty (.ofInt 5)
      ≤ rowsR [[some (.ofInt 1), some (.ofInt 2)]] Cfg.empty := by
  have h := c4_scaled_in_bounds [[some (.ofInt 1), some (.ofInt 2)]] Cfg.empty
    (PyNum.toRat_le.mp (by decide))
    (by
      have h0 := PyNum.toRat_le.mp
        (by decide : PyNum.le (PyNum.ofInt 0)
          (heightR [[some (.ofInt 1), some (.ofInt 2)]] Cfg.empty))
      rw [PyNum.toRat_ofInt] at h0
      exact_mod_cast h0)
    (by decide)
  exact ⟨(h.2.1 (.ofInt 5)).1, (h.2.1 (.ofInt 5)).2.1⟩

theorem pyGet_ok_get? {α : Type} {l : List α} {i : ℤ} {a : α}
    (h : pyGet l i = .ok a) : l.get? (pyIdx l.length i).toNat = some a := by
  unfold pyGet at h
  split at h
  · exact Except.noConfusion h
  · split at h
    · next heq =>
        injection h with h'
        subst h'
        exact heq
    · exact Except.noConfusion h

theorem pySet_ok {α : Type} {l : List α} {i : ℤ} {v : α} {l' : List α}
    (h : pySet l i v = .ok l') :
    l' = l.set (pyIdx l.length i).toNat v ∧ (pyIdx l.length i).toNat < l.length := by
  unfold pySet at h
  split at h
  · exact Except.noConfusion h
  · split at h
    · next hlt =>
        injection h with h'
        exact ⟨h'.symm, hlt⟩
    · exact Except.noConfusion h

/-- Any cell changed by a successful `setCell` holds the written value. -/
theorem setCell_changed {g g' : Grid} {r c : ℤ} {v : String}
    (h : setCell g r c v = .ok g') :
    ∀ r' c' : ℕ, getCell g' r' c' ≠ getCell g r' c' → getCell g' r' c' = v := by
  unfold setCell at h
  cases hrow : pyGet g r with
  | error e => rw [hrow, error_bind] at h; exact Except.noConfusion h
  | ok row =>
      rw [hrow, ok_bind] at h
      cases hrow' : pySet row c v with
      | error e => rw [hrow', error_bind] at h; exact Except.noConfusion h
      | ok row' =>
          rw [hrow', ok_bind] at h
          obtain ⟨hg', hjr⟩ := pySet_ok h
          obtain ⟨hrw, hjc⟩ := pySet_ok hrow'
          have hget := pyGet_ok_get? hrow
          intro r' c' hne
          by_cases hr : r' = (pyIdx g.length r).toNat
          · subst hr
            have h1 : g'.get? (pyIdx g.length r).toNat = some row' := by
              rw [hg', List.get?_eq_getElem?, List.getElem?_set_eq_of_lt row' hjr]
            by_cases hc : c' = (pyIdx row.length c).toNat
            · subst hc
              have h2 : row'.get? (pyIdx row.length c).toNat = some v := by
                rw [hrw, List.get?_eq_getElem?, List.getElem?_set_eq_of_lt v hjc]
              unfold getCell
              rw [h1, Option.getD_some, h2, Option.getD_some]
            · exfalso
              apply hne
              unfold getCell
              have h2 : row'.get? c' = row.get? c' := by
                rw [hrw, List.get?_eq_getElem?, List.get?_eq_getElem?,
                  List.getElem?_set_ne (fun he => hc he.symm)]
              rw [h1, hget, Option.getD_some, Option.getD_some, h2]
          · exfalso
            apply hne
            unfold getCell
            have h1 : g'.get? r' = g.get? r' := by
              rw [hg', List.get?_eq_getElem?, List.get?_eq_getElem?,
                List.getElem?_set_ne (fun he => hr he.symm)]
            rw [h1]

/-- Any cell changed by one colour-wrapped write (the common shape of the
line-painting writes) holds `colors[i] ++ symbols[k] ++ colors[-1]`. -/
theorem write_changed {colors symbols : List String} {i k : ℤ} {ci cl : String}
    (hci : pyGet colors i = .ok ci) (hcl : pyGet colors (-1) = .ok cl)
    {R C : ℤ} {g g' : Grid}
    (h : (do
        let c ← pyGet colors i
        let s ← pyGet symbols k
        let cl' ← pyGet colors (-1)
        setCell g R C (c ++ s ++ cl')) = .ok g') :
    ∀ r c : ℕ, getCell g' r c ≠ getCell g r c →
      ∃ s, pyGet symbols k = .ok s ∧ getCell g' r c = ci ++ s ++ cl := by
  rw [hci, ok_bind] at h
  cases hs : pyGet symbols k with
  | error e => rw [hs, error_bind] at h; exact Except.noConfusion h
  | ok s =>
      rw [hs, ok_bind, hcl, ok_bind] at h
      intro r c hne
      exact ⟨s, rfl, setCell_changed h r c hne⟩

/-- Any cell changed by the vertical-fill loop holds the wrapped
vertical-fill glyph (stated on the loop body after the colour lookups have
been resolved). -/
theorem fillFold_changed {symbols : List String} {ci cl : String}
    (rows offset x : ℤ) :
    ∀ (l : List ℤ) (g g' : Grid),
      (l.foldlM (fun h y =>
          pyGet symbols 9 >>= fun s3 =>
            setCell h (rows - y) (x + offset) (ci ++ s3 ++ cl)) g) = .ok g' →
      ∀ r c : ℕ, getCell g' r c ≠ getCell g r c →
        ∃ s9, pyGet symbols 9 = .ok s9 ∧ getCell g' r c = ci ++ s9 ++ cl := by
  intro l
  induction l with
  | nil =>
      intro g g' h r c hne
      rw [List.foldlM_nil] at h
      injection h with h'
      rw [h'] at hne
      exact absurd rfl hne
  | cons y t ih =>
      intro g g' h r c hne
      rw [List.foldlM_cons] at h
      cases hstep : (pyGet symbols 9 >>= fun s3 =>
          setCell g (rows - y) (x + offset) (ci ++ s3 ++ cl) : Exc Grid) with
      | error e =>
          rw [hstep, error_bind] at h
          exact Except.noConfusion h
      | ok g1 =>
          rw [hstep, ok_bind] at h
          cases hs9 : pyGet symbols 9 with
          | error e =>
              rw [hs9, error_bind] at hstep
              exact Except.noConfusion hstep
          | ok s9 =>
              rw [hs9, ok_bind] at hstep
              by_cases hmid : getCell g' r c = getCell g1 r c
              · have hfirst : getCell g1 r c ≠ getCell g r c := by
                  rw [← hmid]; exact hne
                have hv := setCell_changed hstep r c hfirst
                exact ⟨s9, rfl, by rw [hmid]; exact hv⟩
              · obtain ⟨s9', hs9', hval⟩ := ih g1 g' h r c hmid
                rw [hs9] at hs9'
                injection hs9' with he
                exact ⟨s9, rfl, by rw [he]; exact hval⟩

/-- C5: the missing-data law of the line painter.  For an adjacent pair both
missing nothing is written; a missing sample followed by a numeric one makes
exactly one write, the rise-from-gap glyph `symbols[2]` at the numeric
sample's row in the pair's column `x + offset`; a numeric sample followed by
a missing one makes exactly one write, the fall-into-gap glyph `symbols[3]`
at the numeric sample's row in the pair's column.  On `[1, NaN, 3]` with the
default configuration the plot column of index 0 holds the fall glyph, the
column of index 1 holds the rise glyph, and no other plot-area cell holds
any glyph. -/
theorem c5_missing_data_law :
    (∀ (colors symbols : List String) (rows offset : ℤ) (scaled : PyNum → ℤ)
        (i x : ℤ) (g : Grid),
      paintPair colors symbols rows offset scaled i x none none g = .ok g) ∧
    (∀ (colors symbols : List String) (rows offset : ℤ) (scaled : PyNum → ℤ)
        (i x : ℤ) (v1 : PyNum) (g : Grid) (ci s2 cl : String),
      pyGet colors i = .ok ci → pyGet symbols 2 = .ok s2 →
      pyGet colors (-1) = .ok cl →
      paintPair colors symbols rows offset scaled i x none (some v1) g
        = setCell g (rows - scaled v1) (x + offset) (ci ++ s2 ++ cl)) ∧
    (∀ (colors symbols : List String) (rows offset : ℤ) (scaled : PyNum → ℤ)
        (i x : ℤ) (v0 : PyNum) (g : Grid) (ci s3 cl : String),
      pyGet colors i = .ok ci → pyGet symbols 3 = .ok s3 →
      pyGet colors (-1) = .ok cl →
      paintPair colors symbols rows offset scaled i x (some v0) none g
        = setCell g (rows - scaled v0) (x + offset) (ci ++ s3 ++ cl)) ∧
    (getCell (gridOf (plotGridCore [[some (.ofInt 1), none, some (.ofInt 3)]] Cfg.empty))
        2 3 = "\x1b[0m" ++ "╴" ++ "\x1b[0m" ∧
     getCell (gridOf (plotGridCore [[some (.ofInt 1), none, some (.ofInt 3)]] Cfg.empty))
        0 4 = "\x1b[0m" ++ "╶" ++ "\x1b[0m" ∧
     ∀ r : Fin 4, ∀ c : Fin 6, 3 ≤ c.1 → ¬(r.1 = 2 ∧ c.1 = 3) → ¬(r.1 = 0 ∧ c.1 = 4) →
       getCell (gridOf (plotGridCore [[some (.ofInt 1), none, some (.ofInt 3)]] Cfg.empty))
         r.1 c.1 = " ") := by
  refine ⟨fun _ _ _ _ _ _ _ _ => rfl, ?_, ?_, by decide, by decide, by decide⟩
  · intro colors symbols rows offset scaled i x v1 g ci s2 cl hci hs2 hcl
    show (do
      let c ← pyGet colors i
      let s ← pyGet symbols 2
      let cl' ← pyGet colors (-1)
      setCell g (rows - scaled v1) (x + offset) (c ++ s ++ cl')) = _
    rw [hci, ok_bind, hs2, ok_bind, hcl, ok_bind]
  · intro colors symbols rows offset scaled i x v0 g ci s3 cl hci hs3 hcl
    show (do
      let c ← pyGet colors i
      let s ← pyGet symbols 3
      let cl' ← pyGet colors (-1)
      setCell g (rows - scaled v0) (x + offset) (c ++ s ++ cl')) = _
    rw [hci, ok_bind, hs3, ok_bind, hcl, ok_bind]

/-- C5 witness: the rise-from-gap law instantiated on concrete data. -/
theorem c5_witness :
    paintPair ["A", "B"] defaultSymbols 3 3 (fun _ => 2) 0 1 none (some (.ofInt 7)) []
      = setCell [] (3 - 2) (1 + 3) ("A" ++ "╶" ++ "B") :=
  c5_missing_data_law.2.1 ["A", "B"] defaultSymbols 3 3 (fun _ => 2) 0 1
    (.ofInt 7) [] "A" "╶" "B" rfl rfl rfl

/-- C7 (amended): every cell changed by the per-pair main loop holds a
colour-wrapped glyph `colors[i] ++ symbols[k] ++ colors[-1]`; but the
zero-tick glyph stamped before the main loop is written bare — any cell it
changes holds exactly `symbols[0]` with no colour wrapping. -/
theorem c7_color_wrapping (colors symbols : List String) (rows offset : ℤ)
    (scaled : PyNum → ℤ) (i x : ℤ) (ci cl : String)
    (hci : pyGet colors i = .ok ci) (hcl : pyGet colors (-1) = .ok cl) :
    (∀ (d0 d1 : Option PyNum) (g g' : Grid),
      paintPair colors symbols rows offset scaled i x d0 d1 g = .ok g' →
      ∀ r c : ℕ, getCell g' r c ≠ getCell g r c →
        ∃ (k : ℤ) (s : String), pyGet symbols k = .ok s ∧
          getCell g' r c = ci ++ s ++ cl) ∧
    (∀ (v : PyNum) (t : String) (g g' : Grid), pyGet symbols 0 = .ok t →
      firstTick symbols rows offset scaled (some v) g = .ok g' →
      ∀ r c : ℕ, getCell g' r c ≠ getCell g r c → getCell g' r c = t) := by
  constructor
  · intro d0 d1 g g' h r c hne
    cases d0 with
    | none =>
        cases d1 with
        | none =>
            injection h with h'
            rw [h'] at hne
            exact absurd rfl hne
        | some v1 =>
            obtain ⟨s, hs, hval⟩ := write_changed hci hcl h r c hne
            exact ⟨2, s, hs, hval⟩
    | some v0 =>
        cases d1 with
        | none =>
            obtain ⟨s, hs, hval⟩ := write_changed hci hcl h r c hne
            exact ⟨3, s, hs, hval⟩
        | some v1 =>
            simp only [paintPair] at h
            split at h
            · obtain ⟨s, hs, hval⟩ := write_changed hci hcl h r c hne
              exact ⟨4, s, hs, hval⟩
            · simp only [hci, hcl, ok_bind] at h
              cases hs1 : pyGet symbols (if scaled v1 < scaled v0 then 5 else 6) with
              | error e => rw [hs1, error_bind] at h; exact Except.noConfusion h
              | ok s1 =>
                  rw [hs1, ok_bind] at h
                  cases hset1 : setCell g (rows - scaled v1) (x + offset)
                      (ci ++ s1 ++ cl) with
                  | error e => rw [hset1, error_bind] at h; exact Except.noConfusion h
                  | ok g1 =>
                      rw [hset1, ok_bind] at h
                      cases hs2 : pyGet symbols (if scaled v1 < scaled v0 then 7 else 8) with
                      | error e => rw [hs2, error_bind] at h; exact Except.noConfusion h
                      | ok s2 =>
                          rw [hs2, ok_bind] at h
                          cases hset2 : setCell g1 (rows - scaled v0) (x + offset)
                              (ci ++ s2 ++ cl) with
                          | error e =>
                              rw [hset2, error_bind] at h
                              exact Except.noConfusion h
                          | ok g2 =>
                              rw [hset2, ok_bind] at h
                              by_cases h2 : getCell g' r c = getCell g2 r c
                              · by_cases h1 : getCell g2 r c = getCell g1 r c
                                · have hx : getCell g1 r c ≠ getCell g r c := by
                                    intro he
                                    exact hne (by rw [h2, h1, he])
                                  have hv := setCell_changed hset1 r c hx
                                  exact ⟨(if scaled v1 < scaled v0 then 5 else 6), s1,
                                    hs1, by rw [h2, h1]; exact hv⟩
                                · have hv := setCell_changed hset2 r c h1
                                  exact ⟨(if scaled v1 < scaled v0 then 7 else 8), s2,
                                    hs2, by rw [h2]; exact hv⟩
                              · obtain ⟨s9, hs9, hval⟩ :=
                                  fillFold_changed rows offset x _ g2 g' h r c h2
                                exact ⟨9, s9, hs9, hval⟩
  · intro v t g g' ht h r c hne
    simp only [firstTick] at h
    rw [ht, ok_bind] at h
    exact setCell_changed h r c hne

/-- C7 counterexample: with colors `["A", "R"]` configured, the cell where
the pre-loop zero-tick glyph lands contains the bare `symbols[0]` glyph, not
the claimed wrapped form `color[0] ++ glyph ++ color[last]`. -/
theorem c7_counterexample :
    getCell (gridOf (plotGridCore [[some (.ofInt 1), some (.ofInt 2)]]
        { colors := some ["A", "R"] })) 1 2 = "┼" ∧
    getCell (gridOf (plotGridCore [[some (.ofInt 1), some (.ofInt 2)]]
        { colors := some ["A", "R"] })) 1 2 ≠ "A" ++ "┼" ++ "R" := by
  refine ⟨by decide, by decide⟩

/-- C7 witness: the bare-tick conclusion instantiated on concrete data. -/
theorem c7_witness : getCell [["A", "┼"]] 0 1 = "┼" :=
  (c7_color_wrapping ["A", "R"] defaultSymbols 0 2 (fun _ => 0) 0 0 "A" "R"
      rfl rfl).2
    (.ofInt 1) "┼" [["A", " "]] [["A", "┼"]] rfl rfl 0 1 (by decide)

/-- C6 counterexample: for the constant series `[5,5,5,5]` with default
configuration the resolved interval is 5 (the minimum is seeded at 0), not
0 as the claim states. -/
theorem c6_counterexample :
    (intervalR [[some (.ofInt 5), some (.ofInt 5), some (.ofInt 5), some (.ofInt 5)]]
        Cfg.empty).toRat = 5 ∧
    (intervalR [[some (.ofInt 5), some (.ofInt 5), some (.ofInt 5), some (.ofInt 5)]]
        Cfg.empty).toRat ≠ 0 := by
  have he : intervalR
      [[some (.ofInt 5), some (.ofInt 5), some (.ofInt 5), some (.ofInt 5)]]
      Cfg.empty = PyNum.ofInt 5 := by decide
  rw [he, PyNum.toRat_ofInt]
  norm_num

/-- C6 (amended): rendering `[5,5,5,5]` with the default configuration gives
interval 5 (minimum seeded at 0) and ratio 1, paints only flat glyphs, all on
the single top row, and succeeds; and the two division hazards are defined
behaviour: `ratio` is 1 whenever `interval = 0`, and with `rows = 0` the
label value divides by 1. -/
theorem c6_constant_series :
    (intervalR [[some (.ofInt 5), some (.ofInt 5), some (.ofInt 5), some (.ofInt 5)]]
        Cfg.empty).toRat = 5 ∧
    (ratioR [[some (.ofInt 5), some (.ofInt 5), some (.ofInt 5), some (.ofInt 5)]]
        Cfg.empty).toRat = 1 ∧
    isOkB (plot [[some (.ofInt 5), some (.ofInt 5), some (.ofInt 5), some (.ofInt 5)]]
        Cfg.empty) = true ∧
    getCell (gridOf (plotGridCore
        [[some (.ofInt 5), some (.ofInt 5), some (.ofInt 5), some (.ofInt 5)]]
        Cfg.empty)) 0 3 = "\x1b[0m" ++ "─" ++ "\x1b[0m" ∧
    getCell (gridOf (plotGridCore
        [[some (.ofInt 5), some (.ofInt 5), some (.ofInt 5), some (.ofInt 5)]]
        Cfg.empty)) 0 4 = "\x1b[0m" ++ "─" ++ "\x1b[0m" ∧
    getCell (gridOf (plotGridCore
        [[some (.ofInt 5), some (.ofInt 5), some (.ofInt 5), some (.ofInt 5)]]
        Cfg.empty)) 0 5 = "\x1b[0m" ++ "─" ++ "\x1b[0m" ∧
    (∀ r : Fin 6, ∀ c : Fin 7, 3 ≤ c.1 → r.1 ≠ 0 →
      getCell (gridOf (plotGridCore
        [[some (.ofInt 5), some (.ofInt 5), some (.ofInt 5), some (.ofInt 5)]]
        Cfg.empty)) r.1 c.1 = " ") ∧
    (∀ (s : List (List (Option PyNum))) (cfg : Cfg),
      (intervalR s cfg).toRat = 0 → (ratioR s cfg).toRat = 1) ∧
    (∀ (M I : PyNum) (m2 y : ℤ),
      (labelValue M I m2 0 y).toRat = M.toRat - (y - m2) * I.toRat) := by
  refine ⟨?_, ?_, by decide, by decide, by decide, by decide,
    by decide, ?_, ?_⟩
  · have he : intervalR
        [[some (.ofInt 5), some (.ofInt 5), some (.ofInt 5), some (.ofInt 5)]]
        Cfg.empty = PyNum.ofInt 5 := by decide
    rw [he, PyNum.toRat_ofInt]
    norm_num
  · have hr : ratioR
        [[some (.ofInt 5), some (.ofInt 5), some (.ofInt 5), some (.ofInt 5)]]
        Cfg.empty = ⟨5, 5, by norm_num⟩ := by decide
    rw [hr]
    unfold PyNum.toRat
    norm_num
  · intro s cfg h0
    have hlt : ¬ PyNum.lt (PyNum.ofInt 0) (intervalR s cfg) := by
      rw [PyNum.toRat_lt, PyNum.toRat_ofInt, h0]
      norm_num
    unfold ratioR
    rw [if_neg hlt, PyNum.toRat_ofInt]
    norm_num
  · intro M I m2 y
    unfold labelValue
    rw [if_pos rfl]
    rw [PyNum.toRat_sub,
      PyNum.toRat_div_pos _ _ (by norm_num [PyNum.ofInt] : 0 < (PyNum.ofInt 1).num),
      PyNum.toRat_mul, PyNum.toRat_ofInt, PyNum.toRat_ofInt]
    push_cast
    ring

/-- C6 witness: the `interval = 0` hazard conjunct instantiated on the
all-zero series. -/
theorem c6_witness : (ratioR [[some (.ofInt 0)]] Cfg.empty).toRat = 1 := by
  apply c6_constant_series.2.2.2.2.2.2.2.1 [[some (.ofInt 0)]] Cfg.empty
  have he : intervalR [[some (.ofInt 0)]] Cfg.empty = PyNum.ofInt 0 := by decide
  rw [he, PyNum.toRat_ofInt]
  norm_num

theorem pyGet_replicate {α : Type} (n : ℕ) (a : α) (i : ℤ)
    (h0 : 0 ≤ i) (h1 : i < (n : ℤ)) :
    pyGet (List.replicate n a) i = .ok a := by
  unfold pyGet
  have hid : pyIdx (List.replicate n a).length i = i := by
    unfold pyIdx
    rw [if_neg (not_lt.mpr h0)]
  rw [hid, if_neg (not_lt.mpr h0), List.get?_eq_getElem?, List.getElem?_replicate,
    if_pos (by omega : i.toNat < n)]

theorem pyGet_replicate_last {α : Type} (n : ℕ) (a : α) (hn : 0 < n) :
    pyGet (List.replicate n a) (-1) = .ok a := by
  unfold pyGet
  have hlen : (List.replicate n a).length = n := List.length_replicate _ _
  have hid : pyIdx (List.replicate n a).length (-1) = (n : ℤ) - 1 := by
    unfold pyIdx
    rw [hlen, if_pos (by norm_num : (-1 : ℤ) < 0)]
    ring
  rw [hid, if_neg (by omega : ¬ ((n : ℤ) - 1 < 0)), List.get?_eq_getElem?,
    List.getElem?_replicate, if_pos (by omega : ((n : ℤ) - 1).toNat < n)]

/-- C8 counterexample: with no colors configured, a painted plot cell is the
glyph wrapped in the ANSI reset sequence, not the bare glyph. -/
theorem c8_counterexample :
    getCell (gridOf (plotGridCore [[some (.ofInt 1), some (.ofInt 1)]] Cfg.empty)) 0 3
      = "\x1b[0m" ++ "─" ++ "\x1b[0m" ∧
    getCell (gridOf (plotGridCore [[some (.ofInt 1), some (.ofInt 1)]] Cfg.empty)) 0 3
      ≠ "─" := by
  refine ⟨by decide, by decide⟩

/-- C8 (amended): when no colors list is configured, every colour-wrapper
string defaults to the ANSI reset sequence `'\033[0m'` (not an empty
string), so each painted grid cell is the reset sequence, then the glyph,
then the reset sequence. -/
theorem c8_default_colors (series : List (List (Option PyNum))) (cfg : Cfg)
    (h : cfg.colors = none) :
    resolvedColors series cfg = List.replicate (series.length + 1) "\x1b[0m" ∧
    (∀ i : ℤ, 0 ≤ i → i < ((series.length : ℤ) + 1) →
      pyGet (resolvedColors series cfg) i = .ok "\x1b[0m") ∧
    pyGet (resolvedColors series cfg) (-1) = .ok "\x1b[0m" ∧
    getCell (gridOf (plotGridCore [[some (.ofInt 1), some (.ofInt 1)]] Cfg.empty)) 0 3
      = "\x1b[0m" ++ "─" ++ "\x1b[0m" := by
  have hc : resolvedColors series cfg = List.replicate (series.length + 1) "\x1b[0m" := by
    unfold resolvedColors
    rw [h]
    rfl
  refine ⟨hc, ?_, ?_, by decide⟩
  · intro i h0 h1
    rw [hc]
    exact pyGet_replicate _ _ _ h0 (by push_cast; omega)
  · rw [hc]
    exact pyGet_replicate_last _ _ (Nat.succ_pos _)

/-- C8 witness: the default colour list on a one-series input at index 0. -/
theorem c8_witness :
    pyGet (resolvedColors [[some (.ofInt 1), some (.ofInt 1)]] Cfg.empty) 0
      = .ok "\x1b[0m" :=
  (c8_default_colors [[some (.ofInt 1), some (.ofInt 1)]] Cfg.empty rfl).2.1 0
    (by norm_num) (by norm_num)

end AsciiChart
